import Mathlib

/-!
Verification of the market-sentiment-analyzer core pipeline, shallowly
embedded from the Python sources:
  - financial_metrics.py          (FinancialMetricsAnalyzer.analyze_valuation)
  - sentiment_analyzer.py         (simple_sentiment_score, report sorting)
  - lambda-package/sentiment_analyzer.py (_generate_combined_signal)
  - fast_sp500_movers.py / lambda-package/sp500_movers.py (_generate_signal,
    _infer_sentiment)
Numbers are modelled as exact rationals; optional values as Option;
Python truthiness of an optional float (None and 0.0 are falsy) is made
explicit at each guard.
-/

namespace MarketSentiment

/-! ## Fundamentals evaluator: financial_metrics.py, analyze_valuation -/

/-- The qualitative overall verdict strings of analyze_valuation. -/
inductive Overall
  | Unknown
  | Attractive
  | Concerns
  | Mixed
  deriving DecidableEq, Repr

/-- The messages appended by analyze_valuation, one constructor per
`assessment[...].append(...)` site, carrying the metric value that the
Python f-string interpolates. -/
inductive ValMsg
  | lowPE (v : ℚ)            -- "Low P/E ({v:.2f}) - potentially undervalued"
  | highPE (v : ℚ)           -- "High P/E ({v:.2f}) - potentially overvalued"
  | moderatePE (v : ℚ)       -- "Moderate P/E ({v:.2f}) - fairly valued"
  | pegGoodValue (v : ℚ)     -- "PEG ratio {v:.2f} - good value relative to growth"
  | pegExpensive (v : ℚ)     -- "PEG ratio {v:.2f} - expensive relative to growth"
  | pbBelowBook (v : ℚ)      -- "P/B ratio {v:.2f} - trading below book value"
  | pbPremium (v : ℚ)        -- "P/B ratio {v:.2f} - trading at premium"
  | highDebt (v : ℚ)         -- "High debt-to-equity ({v:.2f})"
  | lowDebt (v : ℚ)          -- "Low debt-to-equity ({v:.2f}) - strong balance sheet"
  | strongMargin (v : ℚ)     -- "Strong profit margin ({v}%)"
  | lowMargin (v : ℚ)        -- "Low profit margin ({v}%)"
  | strongGrowth (v : ℚ)     -- "Strong revenue growth ({v}%)"
  | decliningRevenue (v : ℚ) -- "Declining revenue ({v}%)"
  deriving DecidableEq, Repr

/-- The flat metrics mapping, restricted to the keys analyze_valuation reads
(source keys: pe_ratio, peg_ratio, price_to_book, debt_to_equity,
profit_margin, quarterly_revenue_growth); a missing key is `none`. -/
structure Metrics where
  pe : Option ℚ
  peg : Option ℚ
  priceToBook : Option ℚ
  debtToEquity : Option ℚ
  profitMargin : Option ℚ
  revenueGrowth : Option ℚ
  deriving DecidableEq, Repr

/-- The assessment dict built by analyze_valuation. -/
structure Assessment where
  overall : Overall
  signals : List ValMsg
  concerns : List ValMsg
  strengths : List ValMsg
  deriving DecidableEq, Repr

def addSignal (a : Assessment) (m : ValMsg) : Assessment :=
  { a with signals := a.signals ++ [m] }

def addConcern (a : Assessment) (m : ValMsg) : Assessment :=
  { a with concerns := a.concerns ++ [m] }

def addStrength (a : Assessment) (m : ValMsg) : Assessment :=
  { a with strengths := a.strengths ++ [m] }

/-- P/E block: `if pe_ratio:` is Python truthiness, so a missing key or an
exact 0 value skips the whole block. -/
def peRule (a : Assessment) (mtr : Metrics) : Assessment :=
  match mtr.pe with
  | none => a
  | some v =>
    if v = 0 then a
    else if v < 15 then addSignal a (.lowPE v)
    else if v > 30 then addConcern a (.highPE v)
    else addSignal a (.moderatePE v)

/-- PEG block: `if peg_ratio and peg_ratio > 0:`. -/
def pegRule (a : Assessment) (mtr : Metrics) : Assessment :=
  match mtr.peg with
  | none => a
  | some v =>
    if v = 0 then a
    else if v > 0 then
      (if v < 1 then addStrength a (.pegGoodValue v)
       else if v > 2 then addConcern a (.pegExpensive v)
       else a)
    else a

/-- P/B block: `if price_to_book:`. -/
def pbRule (a : Assessment) (mtr : Metrics) : Assessment :=
  match mtr.priceToBook with
  | none => a
  | some v =>
    if v = 0 then a
    else if v < 1 then addSignal a (.pbBelowBook v)
    else if v > 5 then addConcern a (.pbPremium v)
    else a

/-- Debt block: `if debt_to_equity:`. -/
def debtRule (a : Assessment) (mtr : Metrics) : Assessment :=
  match mtr.debtToEquity with
  | none => a
  | some v =>
    if v = 0 then a
    else if v > 2 then addConcern a (.highDebt v)
    else if v < 0.5 then addStrength a (.lowDebt v)
    else a

/-- Profit margin block: `if profit_margin:`. -/
def marginRule (a : Assessment) (mtr : Metrics) : Assessment :=
  match mtr.profitMargin with
  | none => a
  | some v =>
    if v = 0 then a
    else if v > 0.20 then addStrength a (.strongMargin v)
    else if v < 0.05 then addConcern a (.lowMargin v)
    else a

/-- Revenue growth block: `if revenue_growth:`. -/
def growthRule (a : Assessment) (mtr : Metrics) : Assessment :=
  match mtr.revenueGrowth with
  | none => a
  | some v =>
    if v = 0 then a
    else if v > 0.15 then addStrength a (.strongGrowth v)
    else if v < 0 then addConcern a (.decliningRevenue v)
    else a

/-- Final overall assessment from the two list lengths. -/
def overallOf (concernCount strengthCount : ℕ) : Overall :=
  if strengthCount > concernCount + 1 then .Attractive
  else if concernCount > strengthCount + 1 then .Concerns
  else .Mixed

/-- analyze_valuation: starts from `overall = Unknown` with three empty
lists, runs the six rule blocks in source order, then overwrites `overall`
from the concern/strength counts. -/
def analyze_valuation (mtr : Metrics) : Assessment :=
  let a0 : Assessment := ⟨.Unknown, [], [], []⟩
  let a := growthRule (marginRule (debtRule (pbRule (pegRule (peRule a0 mtr) mtr) mtr) mtr) mtr) mtr
  { a with overall := overallOf a.concerns.length a.strengths.length }

/-- The empty metrics mapping. -/
def noMetrics : Metrics := ⟨none, none, none, none, none, none⟩

/-! ## Lexicon scorer: sentiment_analyzer.py, simple_sentiment_score
(identical in sentiment_analyzer.py and lambda-package/sentiment_analyzer.py) -/

/-- The fixed positive word list of simple_sentiment_score. -/
def positive_words : List String :=
  ["surge", "soar", "gain", "profit", "growth", "bullish", "rally",
   "beat", "exceed", "strong", "positive", "upgrade", "outperform",
   "record", "high", "breakthrough", "innovation", "success", "rise",
   "jump", "boost", "momentum", "optimistic", "milestone", "expansion"]

/-- The fixed negative word list of simple_sentiment_score. -/
def negative_words : List String :=
  ["plunge", "fall", "drop", "loss", "decline", "bearish", "crash",
   "miss", "weak", "negative", "downgrade", "underperform", "concern",
   "low", "risk", "warning", "struggle", "disappointing", "cut",
   "slump", "trouble", "pressure", "pessimistic", "setback", "layoff"]

/-- Python substring containment `needle in hay` on strings. -/
def containsStr (hay needle : String) : Bool :=
  decide (needle.toList <:+: hay.toList)

/-- Python `text.lower()`, modelled per character. -/
def lowerChars (text : String) : List Char := text.toList.map Char.toLower

/-- Python `word in text.lower()`. -/
def containsLower (text : String) (w : String) : Bool :=
  decide (w.toList <:+: lowerChars text)

/-- simple_sentiment_score: `if not text: return 0`, lower-case, count
substring matches in each word list, return `(pos - neg) / total` (true
division) unless the total is zero. -/
def simple_sentiment_score (text : String) : ℚ :=
  if text = "" then 0
  else
    let pos := positive_words.countP (fun w => containsLower text w)
    let neg := negative_words.countP (fun w => containsLower text w)
    if pos + neg = 0 then 0
    else ((pos : ℚ) - (neg : ℚ)) / ((pos : ℚ) + (neg : ℚ))

/-! ## Signal combiner: lambda-package/sentiment_analyzer.py,
MarketSentimentAnalyzer._generate_combined_signal -/

/-- sentiment_label values. -/
inductive SentLabel
  | Bullish
  | Bearish
  | Neutral
  deriving DecidableEq, Repr

/-- momentum_label values. -/
inductive MomLabel
  | StrongUpward
  | Upward
  | StrongDownward
  | Downward
  | Flat
  | Unknown
  deriving DecidableEq, Repr

/-- Signal labels; in the source each carries an emoji prefix in the
`signal` string ("STRONG BUY" etc.), which maps one-to-one onto this tag. -/
inductive SignalLabel
  | STRONG_BUY
  | BUY
  | WEAK_BUY
  | STRONG_SELL
  | SELL
  | WEAK_SELL
  | NEUTRAL
  deriving DecidableEq, Repr

def SentLabel.str : SentLabel → String
  | .Bullish => "Bullish"
  | .Bearish => "Bearish"
  | .Neutral => "Neutral"

def MomLabel.str : MomLabel → String
  | .StrongUpward => "Strong Upward"
  | .Upward => "Upward"
  | .StrongDownward => "Strong Downward"
  | .Downward => "Downward"
  | .Flat => "Flat"
  | .Unknown => "Unknown"

def Overall.str : Overall → String
  | .Unknown => "Unknown"
  | .Attractive => "Attractive"
  | .Concerns => "Concerns"
  | .Mixed => "Mixed"

/-- Sentiment interpretation: thresholds plus and minus 0.15. -/
def sentimentLabel (sentiment_score : ℚ) : SentLabel :=
  if sentiment_score > 0.15 then .Bullish
  else if sentiment_score < -0.15 then .Bearish
  else .Neutral

/-- Momentum interpretation: `if price_change_pct is not None:` elif chain,
else "Unknown". -/
def momentumLabel : Option ℚ → MomLabel
  | none => .Unknown
  | some p =>
    if p > 2.0 then .StrongUpward
    else if p > 0.5 then .Upward
    else if p < -2.0 then .StrongDownward
    else if p < -0.5 then .Downward
    else .Flat

/-- Sentiment contribution to the composite score (weight 30). -/
def sentContrib : SentLabel → ℤ
  | .Bullish => 30
  | .Bearish => -30
  | .Neutral => 0

/-- Momentum contribution to the composite score (weight 40). -/
def momContrib : MomLabel → ℤ
  | .StrongUpward => 40
  | .Upward => 20
  | .StrongDownward => -40
  | .Downward => -20
  | .Flat => 0
  | .Unknown => 0

/-- Valuation contribution to the composite score (weight 30). -/
def valContrib : Overall → ℤ
  | .Attractive => 30
  | .Concerns => -30
  | .Mixed => 0
  | .Unknown => 0

/-- The `if score >= 60 ... else` chain: the signal label together with the
first string appended to `signals` (the summary sentence). -/
def signalAndSummary (score : ℤ) (sl : SentLabel) (ml : MomLabel) (vl : Overall) :
    SignalLabel × String :=
  if score ≥ 60 then
    (.STRONG_BUY, "High conviction: " ++ sl.str ++ " sentiment + " ++ ml.str ++
      " momentum + " ++ vl.str ++ " valuation")
  else if score ≥ 30 then
    (.BUY, "Positive signals: " ++ sl.str ++ " sentiment, " ++ ml.str ++
      " momentum, " ++ vl.str ++ " valuation")
  else if score ≥ 10 then
    (.WEAK_BUY, "Modestly positive: Check " ++ vl.str ++ " valuation and " ++
      ml.str ++ " momentum")
  else if score ≤ -60 then
    (.STRONG_SELL, "High risk: " ++ sl.str ++ " sentiment + " ++ ml.str ++
      " momentum + " ++ vl.str ++ " valuation")
  else if score ≤ -30 then
    (.SELL, "Negative signals: " ++ sl.str ++ " sentiment, " ++ ml.str ++
      " momentum, " ++ vl.str ++ " valuation")
  else if score ≤ -10 then
    (.WEAK_SELL, "Modestly negative: Monitor " ++ vl.str ++ " valuation and " ++
      ml.str ++ " momentum")
  else
    (.NEUTRAL, "Mixed signals: " ++ sl.str ++ " sentiment, " ++ ml.str ++
      " momentum, " ++ vl.str ++ " valuation")

/-- The trailing `if/elif` chain of combination notes: at most one element.
The note texts carry the exact (mojibake) characters of the source file. -/
def secondaryNotes (sl : SentLabel) (ml : MomLabel) (vl : Overall) : List String :=
  if sl = .Bullish ∧ (ml = .StrongUpward ∨ ml = .Upward) ∧ vl = .Attractive then
    ["â­ All indicators aligned - Strong opportunity"]
  else if sl = .Bearish ∧ (ml = .StrongDownward ∨ ml = .Downward) ∧ vl = .Concerns then
    ["âš ï¸ All indicators negative - High risk"]
  else if sl = .Bullish ∧ vl = .Concerns then
    ["âš ï¸ Positive sentiment but overvalued - Exercise caution"]
  else if sl = .Bearish ∧ vl = .Attractive then
    ["ðŸ’Ž Potential value opportunity despite negative sentiment"]
  else if (ml = .StrongUpward ∨ ml = .Upward) ∧ sl = .Neutral then
    ["ðŸ“ˆ Strong price momentum - Watch for sentiment shift"]
  else []

/-- Python round to integer: round-half-to-even. -/
def pyRoundInt (q : ℚ) : ℤ :=
  let f := q.floor
  if q - f < 1/2 then f
  else if 1/2 < q - f then f + 1
  else if f % 2 = 0 then f else f + 1

/-- Python round(q, 2). -/
def pyRound2 (q : ℚ) : ℚ := (pyRoundInt (q * 100) : ℚ) / 100

/-- The dict returned by _generate_combined_signal. -/
structure CombinedSignal where
  signal : SignalLabel
  sentiment : SentLabel
  momentum : MomLabel
  momentum_pct : Option ℚ
  valuation : Overall
  composite_score : ℤ
  reasoning : List String
  deriving DecidableEq, Repr

/-- _generate_combined_signal(sentiment_score, valuation, price_change_pct).
`momentum_pct` is `round(price_change_pct, 2) if price_change_pct else None`:
Python truthiness again, so both None and exactly 0 give None. -/
def generate_combined_signal (sentiment_score : ℚ) (valuation : Overall)
    (price_change_pct : Option ℚ) : CombinedSignal :=
  let sl := sentimentLabel sentiment_score
  let ml := momentumLabel price_change_pct
  let vl := valuation
  let score := sentContrib sl + momContrib ml + valContrib vl
  let ss := signalAndSummary score sl ml vl
  { signal := ss.1
    sentiment := sl
    momentum := ml
    momentum_pct :=
      match price_change_pct with
      | none => none
      | some p => if p = 0 then none else some (pyRound2 p)
    valuation := vl
    composite_score := score
    reasoning := ss.2 :: secondaryNotes sl ml vl }

/-! ## Mover classifier: fast_sp500_movers.py / lambda-package/sp500_movers.py,
_generate_signal and _infer_sentiment (threshold logic identical in both) -/

inductive MoverKind
  | gainer
  | loser
  deriving DecidableEq, Repr

/-- Mover signal labels (source strings carry an emoji prefix). -/
inductive MoverLabel
  | OVERBOUGHT
  | STRONG_BUY
  | BUY
  | WEAK_BUY
  | OVERSOLD
  | STRONG_SELL
  | SELL
  | WEAK_SELL
  | NEUTRAL
  deriving DecidableEq, Repr

/-- _generate_signal(change_pct, mover_type). -/
def generate_signal (change_pct : ℚ) (mover_type : MoverKind) : MoverLabel :=
  match mover_type with
  | .gainer =>
    if change_pct > 10 then .OVERBOUGHT
    else if change_pct > 5 then .STRONG_BUY
    else if change_pct > 3 then .BUY
    else if change_pct > 1.5 then .WEAK_BUY
    else .NEUTRAL
  | .loser =>
    if change_pct < -10 then .OVERSOLD
    else if change_pct < -5 then .STRONG_SELL
    else if change_pct < -3 then .SELL
    else if change_pct < -1.5 then .WEAK_SELL
    else .NEUTRAL

/-- Qualitative sentiment strings of _infer_sentiment. -/
inductive MoverSentiment
  | VeryBullish
  | Bullish
  | SlightlyBullish
  | SlightlyBearish
  | Bearish
  | VeryBearish
  deriving DecidableEq, Repr

/-- _infer_sentiment(change_pct); note it does not take the mover kind. -/
def infer_sentiment (change_pct : ℚ) : MoverSentiment :=
  if change_pct > 3 then .VeryBullish
  else if change_pct > 1 then .Bullish
  else if change_pct > 0 then .SlightlyBullish
  else if change_pct > -1 then .SlightlyBearish
  else if change_pct > -3 then .Bearish
  else .VeryBearish

/-! ## Report aggregator: sentiment_analyzer.py, _format_enhanced_report
`results.sort(key=lambda x: x.get('sentiment_score', 0), reverse=True)` —
a stable descending sort on the (optional, default 0) sentiment score.
Python list.sort is stable; we model it by the canonical stable descending
insertion sort, which agrees with every stable sort on the same key. -/

/-- A per-ticker record; only the sort key and an identifying payload
matter for the ordering claims. -/
structure TickerRec where
  ticker : String
  sentiment_score : Option ℚ
  deriving DecidableEq, Repr

/-- The sort key `x.get('sentiment_score', 0)`. -/
def keyOf (r : TickerRec) : ℚ := r.sentiment_score.getD 0

/-- Stable descending insert: pass over strictly greater keys, stop at the
first key less than or equal (so earlier equal-key records stay first). -/
def insertDesc (x : TickerRec) : List TickerRec → List TickerRec
  | [] => [x]
  | y :: ys => if keyOf x < keyOf y then y :: insertDesc x ys else x :: y :: ys

/-- Stable descending sort by sentiment score. -/
def sortDesc : List TickerRec → List TickerRec
  | [] => []
  | x :: xs => insertDesc x (sortDesc xs)

/-! ## Decomposition of analyze_valuation into per-rule contributions -/

/-- Signals contributed by the P/E rule, as a function of the pe value. -/
def peS (o : Option ℚ) : List ValMsg :=
  match o with
  | none => []
  | some v =>
    if v = 0 then []
    else if v < 15 then [.lowPE v]
    else if v > 30 then []
    else [.moderatePE v]

/-- Concerns contributed by the P/E rule. -/
def peC (o : Option ℚ) : List ValMsg :=
  match o with
  | none => []
  | some v =>
    if v = 0 then []
    else if v < 15 then []
    else if v > 30 then [.highPE v]
    else []

/-- Strengths contributed by the PEG rule. -/
def pegSt (o : Option ℚ) : List ValMsg :=
  match o with
  | none => []
  | some v => if v ≠ 0 ∧ 0 < v ∧ v < 1 then [.pegGoodValue v] else []

/-- Concerns contributed by the PEG rule. -/
def pegC (o : Option ℚ) : List ValMsg :=
  match o with
  | none => []
  | some v => if v ≠ 0 ∧ 0 < v ∧ ¬v < 1 ∧ v > 2 then [.pegExpensive v] else []

/-- Signals contributed by the P/B rule. -/
def pbS (o : Option ℚ) : List ValMsg :=
  match o with
  | none => []
  | some v => if v ≠ 0 ∧ v < 1 then [.pbBelowBook v] else []

/-- Concerns contributed by the P/B rule. -/
def pbC (o : Option ℚ) : List ValMsg :=
  match o with
  | none => []
  | some v => if v ≠ 0 ∧ ¬v < 1 ∧ v > 5 then [.pbPremium v] else []

/-- Concerns contributed by the debt rule. -/
def debtC (o : Option ℚ) : List ValMsg :=
  match o with
  | none => []
  | some v => if v ≠ 0 ∧ v > 2 then [.highDebt v] else []

/-- Strengths contributed by the debt rule. -/
def debtSt (o : Option ℚ) : List ValMsg :=
  match o with
  | none => []
  | some v => if v ≠ 0 ∧ ¬v > 2 ∧ v < 0.5 then [.lowDebt v] else []

/-- Strengths contributed by the profit-margin rule. -/
def marginSt (o : Option ℚ) : List ValMsg :=
  match o with
  | none => []
  | some v => if v ≠ 0 ∧ v > 0.20 then [.strongMargin v] else []

/-- Concerns contributed by the profit-margin rule. -/
def marginC (o : Option ℚ) : List ValMsg :=
  match o with
  | none => []
  | some v => if v ≠ 0 ∧ ¬v > 0.20 ∧ v < 0.05 then [.lowMargin v] else []

/-- Strengths contributed by the revenue-growth rule. -/
def growthSt (o : Option ℚ) : List ValMsg :=
  match o with
  | none => []
  | some v => if v ≠ 0 ∧ v > 0.15 then [.strongGrowth v] else []

/-- Concerns contributed by the revenue-growth rule. -/
def growthC (o : Option ℚ) : List ValMsg :=
  match o with
  | none => []
  | some v => if v ≠ 0 ∧ ¬v > 0.15 ∧ v < 0 then [.decliningRevenue v] else []

lemma peRule_eq (a : Assessment) (mtr : Metrics) :
    peRule a mtr = { a with signals := a.signals ++ peS mtr.pe,
                            concerns := a.concerns ++ peC mtr.pe } := by
  unfold peRule peS peC
  cases mtr.pe with
  | none => simp
  | some v =>
    by_cases h0 : v = 0 <;> by_cases h1 : v < 15 <;> by_cases h2 : v > 30 <;>
      simp [h0, h1, h2, addSignal, addConcern]

lemma pegRule_eq (a : Assessment) (mtr : Metrics) :
    pegRule a mtr = { a with strengths := a.strengths ++ pegSt mtr.peg,
                             concerns := a.concerns ++ pegC mtr.peg } := by
  unfold pegRule pegSt pegC
  cases mtr.peg with
  | none => simp
  | some v =>
    by_cases h0 : v = 0 <;> by_cases hp : v > 0 <;> by_cases h1 : v < 1 <;>
      by_cases h2 : v > 2 <;>
      simp [h0, hp, h1, h2, addStrength, addConcern]

lemma pbRule_eq (a : Assessment) (mtr : Metrics) :
    pbRule a mtr = { a with signals := a.signals ++ pbS mtr.priceToBook,
                            concerns := a.concerns ++ pbC mtr.priceToBook } := by
  unfold pbRule pbS pbC
  cases mtr.priceToBook with
  | none => simp
  | some v =>
    by_cases h0 : v = 0 <;> by_cases h1 : v < 1 <;> by_cases h2 : v > 5 <;>
      simp [h0, h1, h2, addSignal, addConcern]

lemma debtRule_eq (a : Assessment) (mtr : Metrics) :
    debtRule a mtr = { a with concerns := a.concerns ++ debtC mtr.debtToEquity,
                              strengths := a.strengths ++ debtSt mtr.debtToEquity } := by
  unfold debtRule debtC debtSt
  cases mtr.debtToEquity with
  | none => simp
  | some v =>
    by_cases h0 : v = 0 <;> by_cases h1 : v > 2 <;> by_cases h2 : v < 0.5 <;>
      simp [h0, h1, h2, addConcern, addStrength]

lemma marginRule_eq (a : Assessment) (mtr : Metrics) :
    marginRule a mtr = { a with strengths := a.strengths ++ marginSt mtr.profitMargin,
                                concerns := a.concerns ++ marginC mtr.profitMargin } := by
  unfold marginRule marginSt marginC
  cases mtr.profitMargin with
  | none => simp
  | some v =>
    by_cases h0 : v = 0 <;> by_cases h1 : v > 0.20 <;> by_cases h2 : v < 0.05 <;>
      simp [h0, h1, h2, addStrength, addConcern]

lemma growthRule_eq (a : Assessment) (mtr : Metrics) :
    growthRule a mtr = { a with strengths := a.strengths ++ growthSt mtr.revenueGrowth,
                                concerns := a.concerns ++ growthC mtr.revenueGrowth } := by
  unfold growthRule growthSt growthC
  cases mtr.revenueGrowth with
  | none => simp
  | some v =>
    by_cases h0 : v = 0 <;> by_cases h1 : v > 0.15 <;> by_cases h2 : v < 0 <;>
      simp [h0, h1, h2, addStrength, addConcern]

/-- analyze_valuation, rule by rule: the three evidence lists are the
concatenations of the per-rule contributions in source order. -/
lemma analyze_valuation_eq (mtr : Metrics) :
    analyze_valuation mtr =
      { overall := overallOf (peC mtr.pe ++ pegC mtr.peg ++ pbC mtr.priceToBook ++
                              debtC mtr.debtToEquity ++ marginC mtr.profitMargin ++
                              growthC mtr.revenueGrowth).length
                             (pegSt mtr.peg ++ debtSt mtr.debtToEquity ++
                              marginSt mtr.profitMargin ++ growthSt mtr.revenueGrowth).length
        signals := peS mtr.pe ++ pbS mtr.priceToBook
        concerns := peC mtr.pe ++ pegC mtr.peg ++ pbC mtr.priceToBook ++
                    debtC mtr.debtToEquity ++ marginC mtr.profitMargin ++
                    growthC mtr.revenueGrowth
        strengths := pegSt mtr.peg ++ debtSt mtr.debtToEquity ++
                     marginSt mtr.profitMargin ++ growthSt mtr.revenueGrowth } := by
  simp only [analyze_valuation, peRule_eq, pegRule_eq, pbRule_eq, debtRule_eq,
    marginRule_eq, growthRule_eq]
  simp

/-! Membership characterizations of the per-rule contributions. -/

lemma mem_marginC (o : Option ℚ) (v : ℚ) :
    ValMsg.lowMargin v ∈ marginC o ↔ o = some v ∧ v ≠ 0 ∧ v < 0.05 := by
  rcases o with _ | w
  · simp [marginC]
  · simp only [marginC]
    split_ifs with h
    · simp only [List.mem_singleton, Option.some_inj]
      constructor
      · rintro he
        cases he
        exact ⟨rfl, h.1, h.2.2⟩
      · rintro ⟨he, -, -⟩
        rw [he]
    · simp only [List.not_mem_nil, false_iff]
      rintro ⟨he, h0, h5⟩
      cases he
      exact h ⟨h0, by linarith, h5⟩

lemma mem_debtSt (o : Option ℚ) (v : ℚ) :
    ValMsg.lowDebt v ∈ debtSt o ↔ o = some v ∧ v ≠ 0 ∧ v < 0.5 := by
  rcases o with _ | w
  · simp [debtSt]
  · simp only [debtSt]
    split_ifs with h
    · simp only [List.mem_singleton, Option.some_inj]
      constructor
      · rintro he
        cases he
        exact ⟨rfl, h.1, h.2.2⟩
      · rintro ⟨he, -, -⟩
        rw [he]
    · simp only [List.not_mem_nil, false_iff]
      rintro ⟨he, h0, h5⟩
      cases he
      exact h ⟨h0, by linarith, h5⟩

lemma peC_msgs (o : Option ℚ) (m : ValMsg) (hm : m ∈ peC o) : ∃ w, m = .highPE w := by
  rcases o with _ | w <;> simp only [peC] at hm
  · simp at hm
  · split_ifs at hm <;> simp at hm
    exact ⟨w, hm⟩

lemma peS_msgs (o : Option ℚ) (m : ValMsg) (hm : m ∈ peS o) :
    ∃ w, m = .lowPE w ∨ m = .moderatePE w := by
  rcases o with _ | w <;> simp only [peS] at hm
  · simp at hm
  · split_ifs at hm <;> simp at hm
    · exact ⟨w, Or.inl hm⟩
    · exact ⟨w, Or.inr hm⟩

lemma pegC_msgs (o : Option ℚ) (m : ValMsg) (hm : m ∈ pegC o) : ∃ w, m = .pegExpensive w := by
  rcases o with _ | w <;> simp only [pegC] at hm
  · simp at hm
  · split_ifs at hm <;> simp at hm
    exact ⟨w, hm⟩

lemma pegSt_msgs (o : Option ℚ) (m : ValMsg) (hm : m ∈ pegSt o) : ∃ w, m = .pegGoodValue w := by
  rcases o with _ | w <;> simp only [pegSt] at hm
  · simp at hm
  · split_ifs at hm <;> simp at hm
    exact ⟨w, hm⟩

lemma pbS_msgs (o : Option ℚ) (m : ValMsg) (hm : m ∈ pbS o) : ∃ w, m = .pbBelowBook w := by
  rcases o with _ | w <;> simp only [pbS] at hm
  · simp at hm
  · split_ifs at hm <;> simp at hm
    exact ⟨w, hm⟩

lemma pbC_msgs (o : Option ℚ) (m : ValMsg) (hm : m ∈ pbC o) : ∃ w, m = .pbPremium w := by
  rcases o with _ | w <;> simp only [pbC] at hm
  · simp at hm
  · split_ifs at hm <;> simp at hm
    exact ⟨w, hm⟩

lemma debtC_msgs (o : Option ℚ) (m : ValMsg) (hm : m ∈ debtC o) : ∃ w, m = .highDebt w := by
  rcases o with _ | w <;> simp only [debtC] at hm
  · simp at hm
  · split_ifs at hm <;> simp at hm
    exact ⟨w, hm⟩

lemma marginSt_msgs (o : Option ℚ) (m : ValMsg) (hm : m ∈ marginSt o) :
    ∃ w, m = .strongMargin w := by
  rcases o with _ | w <;> simp only [marginSt] at hm
  · simp at hm
  · split_ifs at hm <;> simp at hm
    exact ⟨w, hm⟩

lemma marginC_msgs (o : Option ℚ) (m : ValMsg) (hm : m ∈ marginC o) :
    ∃ w, m = .lowMargin w := by
  rcases o with _ | w <;> simp only [marginC] at hm
  · simp at hm
  · split_ifs at hm <;> simp at hm
    exact ⟨w, hm⟩

lemma growthC_msgs (o : Option ℚ) (m : ValMsg) (hm : m ∈ growthC o) :
    ∃ w, m = .decliningRevenue w := by
  rcases o with _ | w <;> simp only [growthC] at hm
  · simp at hm
  · split_ifs at hm <;> simp at hm
    exact ⟨w, hm⟩

lemma growthSt_msgs (o : Option ℚ) (m : ValMsg) (hm : m ∈ growthSt o) :
    ∃ w, m = .strongGrowth w := by
  rcases o with _ | w <;> simp only [growthSt] at hm
  · simp at hm
  · split_ifs at hm <;> simp at hm
    exact ⟨w, hm⟩

lemma overallOf_attractive (c s : ℕ) : overallOf c s = .Attractive ↔ s > c + 1 := by
  unfold overallOf
  split_ifs with h1 h2 <;> simp_all

lemma overallOf_concerns (c s : ℕ) : overallOf c s = .Concerns ↔ c > s + 1 := by
  unfold overallOf
  split_ifs with h1 h2 <;> simp_all
  omega

lemma overallOf_mixed (c s : ℕ) : overallOf c s = .Mixed ↔ ¬s > c + 1 ∧ ¬c > s + 1 := by
  unfold overallOf
  split_ifs with h1 h2 <;> simp_all

lemma overallOf_ne_unknown (c s : ℕ) : overallOf c s ≠ .Unknown := by
  unfold overallOf
  split_ifs <;> simp

lemma analyze_overall (mtr : Metrics) :
    (analyze_valuation mtr).overall =
      overallOf (analyze_valuation mtr).concerns.length
        (analyze_valuation mtr).strengths.length := rfl

/-! ## C2: the overall verdict versus the strength/concern counts -/

/-- C2 counterexample: on the empty metrics mapping (no metric present) the
evaluator returns overall = Mixed, not Unknown, refuting "overall = Unknown
exactly when no metric is present". -/
theorem C2_counterexample :
    (analyze_valuation noMetrics).overall = Overall.Mixed ∧
    (analyze_valuation noMetrics).overall ≠ Overall.Unknown := by
  decide

/-- C2 (amended): for every metrics mapping, overall = Attractive iff the
strengths count exceeds the concerns count by more than 1, overall =
Concerns iff the concerns count exceeds the strengths count by more than 1,
and overall = Mixed otherwise — including when no metric is present; the
returned verdict is never Unknown, because the final overall assessment in
the code unconditionally overwrites the initial "Unknown". -/
theorem C2_overall_verdict (mtr : Metrics) :
    ((analyze_valuation mtr).overall = Overall.Attractive ↔
      (analyze_valuation mtr).strengths.length > (analyze_valuation mtr).concerns.length + 1) ∧
    ((analyze_valuation mtr).overall = Overall.Concerns ↔
      (analyze_valuation mtr).concerns.length > (analyze_valuation mtr).strengths.length + 1) ∧
    ((analyze_valuation mtr).overall = Overall.Mixed ↔
      (¬(analyze_valuation mtr).strengths.length > (analyze_valuation mtr).concerns.length + 1 ∧
       ¬(analyze_valuation mtr).concerns.length > (analyze_valuation mtr).strengths.length + 1)) ∧
    (analyze_valuation mtr).overall ≠ Overall.Unknown := by
  rw [analyze_overall]
  exact ⟨overallOf_attractive _ _, overallOf_concerns _ _, overallOf_mixed _ _,
    overallOf_ne_unknown _ _⟩

/-! ## C4: rule firing versus metric presence (Python truthiness) -/

/-- C4 counterexample: a metrics mapping whose profit margin is present and
equal to 0 — which is below 0.05 — yields no low-margin concern at all,
because `if profit_margin:` treats the present value 0.0 like an absent one. -/
theorem C4_counterexample :
    (0 : ℚ) < 0.05 ∧
    ValMsg.lowMargin 0 ∉
      (analyze_valuation ⟨none, none, none, none, some 0, none⟩).concerns ∧
    (analyze_valuation ⟨none, none, none, none, some 0, none⟩).concerns = [] :=
  ⟨by norm_num, by decide, by decide⟩

/-- C4 (amended): each rule fires exactly when its metric is present AND
nonzero (Python truthiness: a present 0.0 is skipped like an absent value):
the low-margin concern is appended iff profit margin is present, nonzero
and below 0.05, and the strong-balance-sheet strength is appended iff
debt-to-equity is present, nonzero and below 0.5; an absent metric never
contributes. -/
theorem C4_truthiness_rules (mtr : Metrics) (v : ℚ) :
    (ValMsg.lowMargin v ∈ (analyze_valuation mtr).concerns ↔
      (mtr.profitMargin = some v ∧ v ≠ 0 ∧ v < 0.05)) ∧
    (ValMsg.lowDebt v ∈ (analyze_valuation mtr).strengths ↔
      (mtr.debtToEquity = some v ∧ v ≠ 0 ∧ v < 0.5)) := by
  rw [analyze_valuation_eq]
  constructor
  · simp only [List.mem_append]
    rw [← mem_marginC]
    constructor
    · rintro (((((h | h) | h) | h) | h) | h)
      · obtain ⟨w, hw⟩ := peC_msgs _ _ h
        cases hw
      · obtain ⟨w, hw⟩ := pegC_msgs _ _ h
        cases hw
      · obtain ⟨w, hw⟩ := pbC_msgs _ _ h
        cases hw
      · obtain ⟨w, hw⟩ := debtC_msgs _ _ h
        cases hw
      · exact h
      · obtain ⟨w, hw⟩ := growthC_msgs _ _ h
        cases hw
    · tauto
  · simp only [List.mem_append]
    rw [← mem_debtSt]
    constructor
    · rintro (((h | h) | h) | h)
      · obtain ⟨w, hw⟩ := pegSt_msgs _ _ h
        cases hw
      · exact h
      · obtain ⟨w, hw⟩ := marginSt_msgs _ _ h
        cases hw
      · obtain ⟨w, hw⟩ := growthSt_msgs _ _ h
        cases hw
    · tauto

/-! ## C7: the P/E boundary values 15 and 30 -/

/-- C7: whenever pe_ratio is present and equal to exactly 15 or exactly 30,
the moderate-P/E fairly-valued signal is appended, and no low-P/E
(undervalued) or high-P/E (overvalued) message is produced. -/
theorem C7_pe_boundary (mtr : Metrics) (v w : ℚ)
    (hpe : mtr.pe = some v) (hv : v = 15 ∨ v = 30) :
    ValMsg.moderatePE v ∈ (analyze_valuation mtr).signals ∧
    ValMsg.lowPE w ∉ (analyze_valuation mtr).signals ∧
    ValMsg.highPE w ∉ (analyze_valuation mtr).concerns := by
  rw [analyze_valuation_eq]
  have hS : peS mtr.pe = [ValMsg.moderatePE v] := by
    unfold peS
    rw [hpe]
    rcases hv with h | h <;> subst h <;> norm_num
  have hC : peC mtr.pe = [] := by
    unfold peC
    rw [hpe]
    rcases hv with h | h <;> subst h <;> norm_num
  refine ⟨by simp [hS], ?_, ?_⟩
  · simp only [List.mem_append, hS]
    rintro (h | h)
    · simp at h
    · obtain ⟨u, hu⟩ := pbS_msgs _ _ h
      cases hu
  · simp only [List.mem_append, hC]
    rintro (((((h | h) | h) | h) | h) | h)
    · simp at h
    · obtain ⟨u, hu⟩ := pegC_msgs _ _ h
      cases hu
    · obtain ⟨u, hu⟩ := pbC_msgs _ _ h
      cases hu
    · obtain ⟨u, hu⟩ := debtC_msgs _ _ h
      cases hu
    · obtain ⟨u, hu⟩ := marginC_msgs _ _ h
      cases hu
    · obtain ⟨u, hu⟩ := growthC_msgs _ _ h
      cases hu

/-- C7 witness: at the concrete mapping carrying only pe_ratio = 15. -/
theorem C7_pe_boundary_witness :
    ValMsg.moderatePE 15 ∈
      (analyze_valuation ⟨some 15, none, none, none, none, none⟩).signals ∧
    ValMsg.lowPE 0 ∉
      (analyze_valuation ⟨some 15, none, none, none, none, none⟩).signals ∧
    ValMsg.highPE 0 ∉
      (analyze_valuation ⟨some 15, none, none, none, none, none⟩).concerns :=
  C7_pe_boundary ⟨some 15, none, none, none, none, none⟩ 15 0 rfl (Or.inl rfl)

/-! ## C1: the composite score and signal label of the combiner.
The following spec_ definitions restate the claim wording (contributions
read off the raw inputs, label read off the composite score) so the code
path through the intermediate labels can be compared against them. -/

/-- Claim wording: sentiment contributes +30 above 0.15, -30 below -0.15,
else 0. -/
def spec_sentContrib (s : ℚ) : ℤ :=
  if s > 0.15 then 30 else if s < -0.15 then -30 else 0

/-- Claim wording: momentum contributes +40 above 2.0, +20 above 0.5,
-40 below -2.0, -20 below -0.5, else 0, and 0 when null. -/
def spec_momContrib : Option ℚ → ℤ
  | none => 0
  | some p =>
    if p > 2.0 then 40
    else if p > 0.5 then 20
    else if p < -2.0 then -40
    else if p < -0.5 then -20
    else 0

/-- Claim wording: valuation contributes +30 for Attractive, -30 for
Concerns, 0 for Mixed or Unknown. -/
def spec_valContrib (v : Overall) : ℤ :=
  if v = .Attractive then 30 else if v = .Concerns then -30 else 0

/-- Claim wording: label thresholds checked high to low, first match wins. -/
def spec_label (score : ℤ) : SignalLabel :=
  if score ≥ 60 then .STRONG_BUY
  else if score ≥ 30 then .BUY
  else if score ≥ 10 then .WEAK_BUY
  else if score ≤ -60 then .STRONG_SELL
  else if score ≤ -30 then .SELL
  else if score ≤ -10 then .WEAK_SELL
  else .NEUTRAL

lemma sentContrib_spec (s : ℚ) : sentContrib (sentimentLabel s) = spec_sentContrib s := by
  unfold sentimentLabel spec_sentContrib
  split_ifs <;> rfl

lemma momContrib_spec (p : Option ℚ) : momContrib (momentumLabel p) = spec_momContrib p := by
  rcases p with _ | q
  · rfl
  · simp only [momentumLabel, spec_momContrib]
    split_ifs <;> rfl

lemma valContrib_spec (v : Overall) : valContrib v = spec_valContrib v := by
  cases v <;> rfl

lemma signalAndSummary_fst (score : ℤ) (sl : SentLabel) (ml : MomLabel) (vl : Overall) :
    (signalAndSummary score sl ml vl).1 = spec_label score := by
  unfold signalAndSummary spec_label
  split_ifs <;> rfl

/-- C1: the combiner's composite score is exactly the sum of the three
claimed contributions, and its signal label is exactly the claimed
first-matching threshold of that score. -/
theorem C1_composite_and_label (s : ℚ) (v : Overall) (p : Option ℚ) :
    (generate_combined_signal s v p).composite_score =
      spec_sentContrib s + spec_momContrib p + spec_valContrib v ∧
    (generate_combined_signal s v p).signal =
      spec_label (spec_sentContrib s + spec_momContrib p + spec_valContrib v) := by
  have hc : (generate_combined_signal s v p).composite_score =
      sentContrib (sentimentLabel s) + momContrib (momentumLabel p) + valContrib v := rfl
  have hs : (generate_combined_signal s v p).signal =
      (signalAndSummary
        (sentContrib (sentimentLabel s) + momContrib (momentumLabel p) + valContrib v)
        (sentimentLabel s) (momentumLabel p) v).1 := rfl
  rw [hc, hs, signalAndSummary_fst, sentContrib_spec, momContrib_spec, valContrib_spec]
  exact ⟨rfl, rfl⟩

/-! ## C9: totality on empty / absent optional inputs -/

/-- C9: the scorer returns 0 on the empty string, the evaluator returns a
definite Mixed verdict with empty evidence lists on the empty metrics
mapping, and a null momentum yields the Unknown momentum label, a null
momentum_pct echo, and a composite score without any momentum
contribution — all as ordinary values, with every core operation total. -/
theorem C9_absent_inputs :
    simple_sentiment_score "" = 0 ∧
    analyze_valuation noMetrics = ⟨Overall.Mixed, [], [], []⟩ ∧
    (∀ s : ℚ, ∀ v : Overall,
      (generate_combined_signal s v none).momentum = MomLabel.Unknown ∧
      (generate_combined_signal s v none).momentum_pct = none ∧
      (generate_combined_signal s v none).composite_score =
        sentContrib (sentimentLabel s) + valContrib v) := by
  refine ⟨by decide, by decide, fun s v => ⟨rfl, rfl, ?_⟩⟩
  have hc : (generate_combined_signal s v none).composite_score =
      sentContrib (sentimentLabel s) + momContrib (momentumLabel none) + valContrib v := rfl
  rw [hc]
  show sentContrib (sentimentLabel s) + momContrib MomLabel.Unknown + valContrib v = _
  show sentContrib (sentimentLabel s) + 0 + valContrib v = _
  rw [add_zero]

/-! ## C10: the momentum_pct echo drops an exact-zero momentum -/

/-- C10: a momentum input of exactly 0 is echoed back as null (None) in
momentum_pct — the Python expression `round(x, 2) if x else None` is falsy
at 0.0 — even though the momentum label is Flat; any nonzero momentum is
echoed rounded to two decimal places (round-half-even). -/
theorem C10_momentum_echo (s : ℚ) (v : Overall) :
    ((generate_combined_signal s v (some 0)).momentum_pct = none ∧
     (generate_combined_signal s v (some 0)).momentum = MomLabel.Flat) ∧
    (∀ p : ℚ, p ≠ 0 →
      (generate_combined_signal s v (some p)).momentum_pct = some (pyRound2 p)) := by
  refine ⟨⟨?_, ?_⟩, fun p hp => ?_⟩
  · show (if (0 : ℚ) = 0 then none else some (pyRound2 0)) = none
    norm_num
  · show momentumLabel (some 0) = MomLabel.Flat
    simp only [momentumLabel]
    norm_num
  · show (if p = 0 then none else some (pyRound2 p)) = some (pyRound2 p)
    simp [hp]

/-- C10 witness: momentum 0 is echoed as None, while the nonzero momentum
1/3 is echoed as its two-decimal rounding. -/
theorem C10_momentum_echo_witness :
    (generate_combined_signal 0 Overall.Mixed (some 0)).momentum_pct = none ∧
    (generate_combined_signal 0 Overall.Mixed (some (1/3))).momentum_pct =
      some (pyRound2 (1/3)) :=
  ⟨(C10_momentum_echo 0 Overall.Mixed).1.1,
   (C10_momentum_echo 0 Overall.Mixed).2 (1/3) (by norm_num)⟩

/-! ## C5: the shape of the reasoning list -/

/-- The combiner, unfolded once (definitional). -/
lemma generate_combined_signal_def (s : ℚ) (v : Overall) (p : Option ℚ) :
    generate_combined_signal s v p =
      { signal := (signalAndSummary
          (sentContrib (sentimentLabel s) + momContrib (momentumLabel p) + valContrib v)
          (sentimentLabel s) (momentumLabel p) v).1
        sentiment := sentimentLabel s
        momentum := momentumLabel p
        momentum_pct :=
          match p with
          | none => none
          | some q => if q = 0 then none else some (pyRound2 q)
        valuation := v
        composite_score :=
          sentContrib (sentimentLabel s) + momContrib (momentumLabel p) + valContrib v
        reasoning := (signalAndSummary
          (sentContrib (sentimentLabel s) + momContrib (momentumLabel p) + valContrib v)
          (sentimentLabel s) (momentumLabel p) v).2 ::
          secondaryNotes (sentimentLabel s) (momentumLabel p) v } := rfl

set_option maxRecDepth 40000 in
/-- Finite case check over all label triples: the summary sentence always
names the momentum and valuation labels; it names the sentiment label
exactly when the signal is not WEAK_BUY or WEAK_SELL; and the secondary
note chain appends at most one note. -/
lemma reasoning_core (sl : SentLabel) (ml : MomLabel) (vl : Overall) :
    containsStr ((signalAndSummary (sentContrib sl + momContrib ml + valContrib vl) sl ml vl).2)
      (MomLabel.str ml) = true ∧
    containsStr ((signalAndSummary (sentContrib sl + momContrib ml + valContrib vl) sl ml vl).2)
      (Overall.str vl) = true ∧
    (containsStr ((signalAndSummary (sentContrib sl + momContrib ml + valContrib vl) sl ml vl).2)
      (SentLabel.str sl) = true ↔
      ((signalAndSummary (sentContrib sl + momContrib ml + valContrib vl) sl ml vl).1 ≠
        SignalLabel.WEAK_BUY ∧
       (signalAndSummary (sentContrib sl + momContrib ml + valContrib vl) sl ml vl).1 ≠
        SignalLabel.WEAK_SELL)) ∧
    (secondaryNotes sl ml vl).length ≤ 1 := by
  cases sl <;> cases ml <;> cases vl <;> decide

/-- C5 counterexample: at sentiment score 0, Mixed valuation and momentum
1 the signal is WEAK_BUY and the single summary sentence ("Modestly
positive: Check Mixed valuation and Upward momentum") does not name the
sentiment label Neutral, refuting "one summary sentence that names all
three labels". -/
theorem C5_counterexample :
    (generate_combined_signal 0 Overall.Mixed (some 1)).sentiment = SentLabel.Neutral ∧
    (generate_combined_signal 0 Overall.Mixed (some 1)).signal = SignalLabel.WEAK_BUY ∧
    containsStr ((generate_combined_signal 0 Overall.Mixed (some 1)).reasoning.headD "")
      (SentLabel.str (generate_combined_signal 0 Overall.Mixed (some 1)).sentiment) = false := by
  have h1 : sentimentLabel 0 = SentLabel.Neutral := by
    unfold sentimentLabel
    norm_num
  have h2 : momentumLabel (some 1) = MomLabel.Upward := by
    simp only [momentumLabel]
    norm_num
  rw [generate_combined_signal_def]
  simp only [h1, h2]
  decide

/-- C5 (amended): the reasoning list is one summary sentence followed by
the at-most-one secondary note chosen by the first matching of the five
combination rules; the summary always names the momentum and valuation
labels, and names the sentiment label exactly when the signal is not
WEAK_BUY / WEAK_SELL (those two summaries mention only valuation and
momentum). -/
theorem C5_reasoning_shape (s : ℚ) (v : Overall) (p : Option ℚ) :
    (generate_combined_signal s v p).reasoning ≠ [] ∧
    (generate_combined_signal s v p).reasoning.tail =
      secondaryNotes (generate_combined_signal s v p).sentiment
        (generate_combined_signal s v p).momentum
        (generate_combined_signal s v p).valuation ∧
    (generate_combined_signal s v p).reasoning.tail.length ≤ 1 ∧
    containsStr ((generate_combined_signal s v p).reasoning.headD "")
      (MomLabel.str (generate_combined_signal s v p).momentum) = true ∧
    containsStr ((generate_combined_signal s v p).reasoning.headD "")
      (Overall.str (generate_combined_signal s v p).valuation) = true ∧
    (containsStr ((generate_combined_signal s v p).reasoning.headD "")
      (SentLabel.str (generate_combined_signal s v p).sentiment) = true ↔
      ((generate_combined_signal s v p).signal ≠ SignalLabel.WEAK_BUY ∧
       (generate_combined_signal s v p).signal ≠ SignalLabel.WEAK_SELL)) := by
  rw [generate_combined_signal_def]
  dsimp only [List.tail_cons, List.headD]
  have hc := reasoning_core (sentimentLabel s) (momentumLabel p) v
  exact ⟨by simp, rfl, hc.2.2.2, hc.1, hc.2.1, hc.2.2.1⟩

/-! ## C3: the lexicon scorer formula and range -/

/-- C3: the scorer equals the claimed quotient of substring-match counts on
the lowercased text (0 when no lexicon word matches, including the empty
string), and always lies in [-1, 1]. -/
theorem C3_score_formula_and_range (text : String) :
    (simple_sentiment_score text =
      if positive_words.countP (fun w => containsLower text w) +
         negative_words.countP (fun w => containsLower text w) = 0 then 0
      else (((positive_words.countP (fun w => containsLower text w) : ℚ)) -
            ((negative_words.countP (fun w => containsLower text w) : ℚ))) /
           (((positive_words.countP (fun w => containsLower text w) : ℚ)) +
            ((negative_words.countP (fun w => containsLower text w) : ℚ)))) ∧
    -1 ≤ simple_sentiment_score text ∧ simple_sentiment_score text ≤ 1 := by
  have key : ∀ P N : ℕ,
      -1 ≤ (if P + N = 0 then (0 : ℚ) else ((P : ℚ) - (N : ℚ)) / ((P : ℚ) + (N : ℚ))) ∧
      (if P + N = 0 then (0 : ℚ) else ((P : ℚ) - (N : ℚ)) / ((P : ℚ) + (N : ℚ))) ≤ 1 := by
    intro P N
    by_cases hz : P + N = 0
    · rw [if_pos hz]
      norm_num
    · have hpos : (0 : ℚ) < (P : ℚ) + (N : ℚ) := by
        have h0 : 0 < P + N := Nat.pos_of_ne_zero hz
        exact_mod_cast h0
      have hP : (0 : ℚ) ≤ (P : ℚ) := Nat.cast_nonneg P
      have hN : (0 : ℚ) ≤ (N : ℚ) := Nat.cast_nonneg N
      rw [if_neg hz]
      constructor
      · rw [le_div_iff₀ hpos]
        linarith
      · rw [div_le_one hpos]
        linarith
  have h1 : simple_sentiment_score text =
      if positive_words.countP (fun w => containsLower text w) +
         negative_words.countP (fun w => containsLower text w) = 0 then 0
      else (((positive_words.countP (fun w => containsLower text w) : ℚ)) -
            ((negative_words.countP (fun w => containsLower text w) : ℚ))) /
           (((positive_words.countP (fun w => containsLower text w) : ℚ)) +
            ((negative_words.countP (fun w => containsLower text w) : ℚ))) := by
    by_cases h : text = ""
    · subst h
      decide
    · simp only [simple_sentiment_score, if_neg h]
  exact ⟨h1, by rw [h1]; exact (key _ _).1, by rw [h1]; exact (key _ _).2⟩

/-! ## C6: the mover classifier thresholds -/

/-- C6: interval characterization of every gainer label, every loser label,
and every sentiment label of the mover classifier; the sentiment label is
computed by infer_sentiment from the raw change percentage alone,
independently of the gainer/loser kind. -/
theorem C6_mover_thresholds (c : ℚ) :
    (generate_signal c .gainer = .OVERBOUGHT ↔ c > 10) ∧
    (generate_signal c .gainer = .STRONG_BUY ↔ (5 < c ∧ c ≤ 10)) ∧
    (generate_signal c .gainer = .BUY ↔ (3 < c ∧ c ≤ 5)) ∧
    (generate_signal c .gainer = .WEAK_BUY ↔ (1.5 < c ∧ c ≤ 3)) ∧
    (generate_signal c .gainer = .NEUTRAL ↔ c ≤ 1.5) ∧
    (generate_signal c .loser = .OVERSOLD ↔ c < -10) ∧
    (generate_signal c .loser = .STRONG_SELL ↔ (-10 ≤ c ∧ c < -5)) ∧
    (generate_signal c .loser = .SELL ↔ (-5 ≤ c ∧ c < -3)) ∧
    (generate_signal c .loser = .WEAK_SELL ↔ (-3 ≤ c ∧ c < -1.5)) ∧
    (generate_signal c .loser = .NEUTRAL ↔ -1.5 ≤ c) ∧
    (infer_sentiment c = .VeryBullish ↔ c > 3) ∧
    (infer_sentiment c = .Bullish ↔ (1 < c ∧ c ≤ 3)) ∧
    (infer_sentiment c = .SlightlyBullish ↔ (0 < c ∧ c ≤ 1)) ∧
    (infer_sentiment c = .SlightlyBearish ↔ (-1 < c ∧ c ≤ 0)) ∧
    (infer_sentiment c = .Bearish ↔ (-3 < c ∧ c ≤ -1)) ∧
    (infer_sentiment c = .VeryBearish ↔ c ≤ -3) := by
  refine ⟨?_, ?_, ?_, ?_, ?_, ?_, ?_, ?_, ?_, ?_, ?_, ?_, ?_, ?_, ?_, ?_⟩ <;>
    · simp only [generate_signal, infer_sentiment]
      split_ifs <;> simp_all <;> (try linarith) <;> (try (intro h; linarith))

/-! ## C8: the report aggregator ordering -/

lemma insertDesc_perm (x : TickerRec) (l : List TickerRec) :
    List.Perm (insertDesc x l) (x :: l) := by
  induction l with
  | nil => exact List.Perm.refl _
  | cons y ys ih =>
    simp only [insertDesc]
    split_ifs with h
    · exact (ih.cons y).trans (List.Perm.swap x y ys)
    · exact List.Perm.refl _

lemma sortDesc_perm (l : List TickerRec) : List.Perm (sortDesc l) l := by
  induction l with
  | nil => exact List.Perm.refl _
  | cons x xs ih =>
    simp only [sortDesc]
    exact (insertDesc_perm x (sortDesc xs)).trans (ih.cons x)

lemma insertDesc_sorted (x : TickerRec) {l : List TickerRec}
    (h : List.Sorted (fun a b => keyOf b ≤ keyOf a) l) :
    List.Sorted (fun a b => keyOf b ≤ keyOf a) (insertDesc x l) := by
  induction l with
  | nil => simp [insertDesc]
  | cons y ys ih =>
    rw [List.sorted_cons] at h
    simp only [insertDesc]
    split_ifs with hxy
    · rw [List.sorted_cons]
      refine ⟨fun b hb => ?_, ih h.2⟩
      have hb2 : b ∈ x :: ys := (insertDesc_perm x ys).mem_iff.1 hb
      rcases List.mem_cons.1 hb2 with rfl | hb3
      · exact le_of_lt hxy
      · exact h.1 b hb3
    · rw [List.sorted_cons]
      refine ⟨fun b hb => ?_, List.sorted_cons.2 h⟩
      rcases List.mem_cons.1 hb with rfl | hb3
      · exact le_of_not_lt hxy
      · exact (h.1 b hb3).trans (le_of_not_lt hxy)

lemma sortDesc_sorted (l : List TickerRec) :
    List.Sorted (fun a b => keyOf b ≤ keyOf a) (sortDesc l) := by
  induction l with
  | nil => simp [sortDesc]
  | cons x xs ih =>
    simp only [sortDesc]
    exact insertDesc_sorted x ih

lemma sortDesc_of_sorted {l : List TickerRec}
    (h : List.Sorted (fun a b => keyOf b ≤ keyOf a) l) : sortDesc l = l := by
  induction l with
  | nil => rfl
  | cons x xs ih =>
    rw [List.sorted_cons] at h
    simp only [sortDesc]
    rw [ih h.2]
    cases xs with
    | nil => rfl
    | cons y ys =>
      simp only [insertDesc]
      rw [if_neg (not_lt.2 (h.1 y (List.mem_cons_self y ys)))]

lemma insertDesc_filter (x : TickerRec) (l : List TickerRec) (k : ℚ) :
    (insertDesc x l).filter (fun r => decide (keyOf r = k)) =
      if keyOf x = k then x :: l.filter (fun r => decide (keyOf r = k))
      else l.filter (fun r => decide (keyOf r = k)) := by
  induction l with
  | nil =>
    simp only [insertDesc]
    by_cases hx : keyOf x = k <;> simp [List.filter, hx]
  | cons y ys ih =>
    simp only [insertDesc]
    by_cases hxy : keyOf x < keyOf y
    · rw [if_pos hxy, List.filter_cons, ih]
      by_cases hx : keyOf x = k <;> by_cases hy : keyOf y = k
      · exact absurd (hx.trans hy.symm) (ne_of_lt hxy)
      · simp [hx, hy, List.filter_cons]
      · simp [hx, hy, List.filter_cons]
      · simp [hx, hy, List.filter_cons]
    · rw [if_neg hxy]
      simp only [List.filter_cons]
      by_cases hx : keyOf x = k <;> simp [hx]

lemma sortDesc_filter (l : List TickerRec) (k : ℚ) :
    (sortDesc l).filter (fun r => decide (keyOf r = k)) =
      l.filter (fun r => decide (keyOf r = k)) := by
  induction l with
  | nil => rfl
  | cons x xs ih =>
    simp only [sortDesc]
    rw [insertDesc_filter, List.filter_cons]
    by_cases hx : keyOf x = k <;> simp [hx, ih]

/-- C8: the aggregator's ordering is a permutation of the input sorted
descending by the (default-0) sentiment score; it is stable — the
subsequence of records at any fixed score value is unchanged — and
applying it a second time yields the identical list. -/
theorem C8_sort_stable_idempotent (l : List TickerRec) :
    List.Sorted (fun a b => keyOf b ≤ keyOf a) (sortDesc l) ∧
    List.Perm (sortDesc l) l ∧
    (∀ k : ℚ, (sortDesc l).filter (fun r => decide (keyOf r = k)) =
      l.filter (fun r => decide (keyOf r = k))) ∧
    sortDesc (sortDesc l) = sortDesc l :=
  ⟨sortDesc_sorted l, sortDesc_perm l, fun k => sortDesc_filter l k,
   sortDesc_of_sorted (sortDesc_sorted l)⟩

end MarketSentiment
